import Mathlib

/-!
Verification of the xena-open-automation-test-suites execution core
(plugin2544).  Each Python class or function used by the specification's
testable properties is shallowly embedded as an executable Lean
definition; machine arithmetic on Python floats/Decimals is modelled
over `ℚ` (every concrete value appearing in the claims is dyadic, so
the model is exact on them), and code that raises exceptions is
modelled with `Except`/`Option`.
-/

/- ---------------------------------------------------------------
   Back-to-back binary-search controller
   (pluginlib/plugin2544/plugin/tc_back_to_back.py)
   --------------------------------------------------------------- -/

/-- The part of `BackToBackConfig` (test_type_config.py) read by
`BackToBackBoutEntry`: `actual_duration` (seconds) and
`burst_resolution` (frames). -/
structure BackToBackConfig where
  actual_duration : ℚ
  burst_resolution : ℚ
deriving DecidableEq

/-- The part of a port statistic read by `update_boundaries`:
`is_final` and `loss_ratio` (named `lossRate` here). -/
structure Statistic where
  is_final : Bool
  lossRate : ℚ
deriving DecidableEq

/-- State of `BackToBackBoutEntry` (tc_back_to_back.py lines 7-24). -/
structure BackToBackBoutEntry where
  left_bound : ℚ
  right_bound : ℚ
  current : ℚ
  next : ℚ
  last_move : Int
  port_should_continue : Bool
  port_test_passed : Bool
deriving DecidableEq

/-- `BackToBackBoutEntry.__init__`: `right_bound = current = next =
actual_duration * rate / 100`, `left_bound = 0`, `last_move = 0`. -/
def BackToBackBoutEntry.init (conf : BackToBackConfig) (rate : ℚ) :
    BackToBackBoutEntry :=
  let bound := conf.actual_duration * rate / 100
  { left_bound := 0
    right_bound := bound
    current := bound
    next := bound
    last_move := 0
    port_should_continue := false
    port_test_passed := false }

/-- `BackToBackBoutEntry.update_left_bound` (lines 56-59). -/
def BackToBackBoutEntry.update_left_bound (e : BackToBackBoutEntry) :
    BackToBackBoutEntry :=
  { e with
    left_bound := e.current
    next := (e.current + e.right_bound) / 2
    last_move := -1 }

/-- `BackToBackBoutEntry.update_right_bound` (lines 61-64). -/
def BackToBackBoutEntry.update_right_bound (e : BackToBackBoutEntry) :
    BackToBackBoutEntry :=
  { e with
    right_bound := e.current
    next := (e.left_bound + e.current) / 2
    last_move := 1 }

/-- `BackToBackBoutEntry.compare_search_pointer` (lines 66-77); returns
the boolean result together with the (possibly snapped) state. -/
def BackToBackBoutEntry.compare_search_pointer (conf : BackToBackConfig)
    (e : BackToBackBoutEntry) : Bool × BackToBackBoutEntry :=
  let res := conf.burst_resolution
  if |e.next - e.current| ≤ res then
    if e.next ≥ e.current then
      if e.right_bound - e.current ≤ res then
        (true, { e with current := e.right_bound })
      else (true, e)
    else
      if e.current - e.left_bound ≤ res then
        (true, { e with current := e.left_bound })
      else (true, e)
  else (false, e)

/-- `BackToBackBoutEntry.update_boundaries` (lines 34-54), taking the
port's current statistic (`none` models `self._port_struct.statistic`
being unset). -/
def BackToBackBoutEntry.update_boundaries (conf : BackToBackConfig)
    (stat : Option Statistic) (e0 : BackToBackBoutEntry) :
    BackToBackBoutEntry :=
  let e := { e0 with port_should_continue := false, port_test_passed := false }
  match stat with
  | none => { e with port_should_continue := true }
  | some st =>
    if !st.is_final then { e with port_should_continue := true }
    else
      let e1 :=
        if e.left_bound ≤ e.right_bound then
          let e2 := if st.lossRate = 0 then e.update_left_bound else e.update_right_bound
          let r := BackToBackBoutEntry.compare_search_pointer conf e2
          if r.1 then { r.2 with port_test_passed := true }
          else { r.2 with port_should_continue := true }
        else e
      { e1 with current := e1.next }

/-- The §8.7 scenario configuration: actual_duration = 2 s,
burst_resolution = 1. -/
def scenConf : BackToBackConfig := { actual_duration := 2, burst_resolution := 1 }

/-- The §8.7 simulated port: final statistics with zero loss exactly
when the burst (the controller's `current`) is at most 150. -/
def scenStat (e : BackToBackBoutEntry) : Statistic :=
  { is_final := true, lossRate := if e.current ≤ 150 then 0 else 1 }

/-- One iteration of the §8.7 scenario. -/
def scenStep (e : BackToBackBoutEntry) : BackToBackBoutEntry :=
  BackToBackBoutEntry.update_boundaries scenConf (some (scenStat e)) e

/-- Controller state after `k` iterations of the §8.7 scenario,
starting from construction with rate = 100 %. -/
def scenState : Nat → BackToBackBoutEntry
  | 0 => BackToBackBoutEntry.init scenConf 100
  | k + 1 => scenStep (scenState k)

/-- The fixed point the §8.7 scenario reaches after one iteration. -/
def scenFixed : BackToBackBoutEntry :=
  { left_bound := 2
    right_bound := 2
    current := 2
    next := 2
    last_move := -1
    port_should_continue := false
    port_test_passed := true }

/-- The invariant claimed for the controller: bounds are ordered and
nonnegative and `next` lies between them. -/
def b2bInv (e : BackToBackBoutEntry) : Prop :=
  0 ≤ e.left_bound ∧ e.left_bound ≤ e.right_bound ∧
    e.left_bound ≤ e.next ∧ e.next ≤ e.right_bound

/-- Strengthening of `b2bInv` that also bounds `current`; this is the
inductive invariant. -/
def b2bInvS (e : BackToBackBoutEntry) : Prop :=
  b2bInv e ∧ e.left_bound ≤ e.current ∧ e.current ≤ e.right_bound

/- ---------------------------------------------------------------
   Resource manager: synchronized start, quit condition, port map
   (plugin2544/plugin/test_resource.py)
   --------------------------------------------------------------- -/

/-- One driver command issued by `ResourceManager.start_traffic`:
either a per-port `P_TRAFFIC` start, a single-chassis `C_TRAFFIC`, or a
scheduled `C_TRAFFICSYNC` with an absolute start time. -/
inductive StartCmd where
  | portTraffic (test_port_index : Nat)
  | chassisTraffic (tester_id : String) (module_port_list : List Nat)
  | trafficSync (tester_id : String) (whenTime : Int) (module_port_list : List Nat)
deriving DecidableEq

/-- `ResourceManager.start_traffic_sync` (lines 288-295): read the
chassis's local clock and schedule a start 2 seconds later for its own
(module, port) list.  `clock` models `(await tester.time.get()).local_time`. -/
def start_traffic_sync (clock : String → Int) (tester_id : String)
    (module_port_list : List Nat) : StartCmd :=
  StartCmd.trafficSync tester_id (clock tester_id + 2) module_port_list

/-- `ResourceManager.start_traffic` (lines 297-321) as the list of
driver commands it issues.  `mapping` is the insertion-ordered
`tester_id ↦ flattened (module, port) list` dictionary; `txPorts` the
`test_port_index`es of the tx ports. -/
def start_traffic (clock : String → Int) (mapping : List (String × List Nat))
    (txPorts : List Nat) (port_sync : Bool) : List StartCmd :=
  if !port_sync then
    txPorts.map StartCmd.portTraffic
  else if mapping.length = 1 then
    match mapping with
    | (tester_id, module_port_list) :: _ =>
        [StartCmd.chassisTraffic tester_id module_port_list]
    | [] => []
  else
    mapping.map (fun p => start_traffic_sync clock p.1 p.2)

/-- The state read by `ResourceManager.should_quit`: the configuration
flag `stop_on_los`, every port's `sync_status`, every tx port's
`traffic_status`, and the elapsed time / duration values. -/
structure QuitInput where
  stop_on_los : Bool
  sync_statuses : List Bool
  tx_traffic_statuses : List Bool
  elapsed : ℚ
  actual_duration : ℚ

/-- `ResourceManager.test_finished` (lines 232-235). -/
def test_finished (q : QuitInput) : Bool :=
  q.tx_traffic_statuses.all (fun t => !t)

/-- `ResourceManager.los` (lines 237-242). -/
def los (q : QuitInput) : Bool :=
  if q.stop_on_los then !(q.sync_statuses.all (fun s => s)) else false

/-- `ResourceManager.should_quit` (lines 244-252): the returned pair is
(return value, whether `xoa_out.send_warning` was called during this
call). -/
def should_quit (q : QuitInput) : Bool × Bool :=
  let tf := test_finished q
  let actual_duration_elapsed : Bool := decide (q.actual_duration + 5 ≤ q.elapsed)
  let l := los q
  (tf || l || actual_duration_elapsed, l)

/-- Number of warnings sent over a sequence of `should_quit` calls. -/
def warningCount (qs : List QuitInput) : Nat :=
  qs.foldl (fun n q => n + (if (should_quit q).2 then 1 else 0)) 0

/-- `ResourceManager.build_map` inputs: a port's identity (tester id,
module index, port index). -/
structure PortIdentity where
  tester_id : String
  module_index : Nat
  port_index : Nat
deriving DecidableEq

/-- The slice of `PortConfiguration` read by `build_map`/`tx_ports`. -/
structure PortConfiguration where
  is_tx_port : Bool
  is_rx_port : Bool
deriving DecidableEq

/-- The slice of `PortStruct` read by `build_map`. -/
structure RMPort where
  port_identity : PortIdentity
  port_conf : PortConfiguration
deriving DecidableEq

/-- `ResourceManager.tx_ports` (lines 45-51): the ports whose
configuration has `is_tx_port`, in configuration order. -/
def tx_ports (port_structs : List RMPort) : List RMPort :=
  port_structs.filter (fun p => p.port_conf.is_tx_port)

/-- `self.mapping[tester_id] += [module_index, port_index]` on a Python
dict, preserving insertion order and creating the key when absent. -/
def dictAppend : List (String × List Nat) → String → List Nat →
    List (String × List Nat)
  | [], k, v => [(k, v)]
  | (k', v') :: rest, k, v =>
    if k' = k then (k', v' ++ v) :: rest else (k', v') :: dictAppend rest k v

/-- Dictionary lookup. -/
def dictGet : List (String × List Nat) → String → Option (List Nat)
  | [], _ => none
  | (k', v') :: rest, k => if k' = k then some v' else dictGet rest k

/-- `ResourceManager.build_map` (lines 69-77), starting from the empty
`mapping`. -/
def build_map (port_structs : List RMPort) : List (String × List Nat) :=
  (tx_ports port_structs).foldl
    (fun m p =>
      dictAppend m p.port_identity.tester_id
        [p.port_identity.module_index, p.port_identity.port_index])
    []

/-- The flattened (module, port) pairs of the ports of `l` that belong
to chassis `c`, in order. -/
def flatPairs (c : String) (l : List RMPort) : List Nat :=
  (l.filter (fun p => p.port_identity.tester_id = c)).flatMap
    (fun p => [p.port_identity.module_index, p.port_identity.port_index])

/-- The flattened (module, port) pairs of the tx ports of chassis `c`,
in configuration order. -/
def flatFor (c : String) (port_structs : List RMPort) : List Nat :=
  flatPairs c (tx_ports port_structs)

/-- Demo port list (the §8.5 shape): chassis A hosts tx ports (0,0) and
(0,1), chassis B hosts tx port (1,2) and an rx-only port (9,9). -/
def c10Ports : List RMPort :=
  [{ port_identity := { tester_id := "A", module_index := 0, port_index := 0 },
     port_conf := { is_tx_port := true, is_rx_port := false } },
   { port_identity := { tester_id := "A", module_index := 0, port_index := 1 },
     port_conf := { is_tx_port := true, is_rx_port := true } },
   { port_identity := { tester_id := "B", module_index := 1, port_index := 2 },
     port_conf := { is_tx_port := true, is_rx_port := false } },
   { port_identity := { tester_id := "B", module_index := 9, port_index := 9 },
     port_conf := { is_tx_port := false, is_rx_port := true } }]

/- ---------------------------------------------------------------
   Learning / address refresh
   (pluginlib/plugin2544/plugin/learning.py)
   --------------------------------------------------------------- -/

/-- Modelled from the spec: `const.MIN_REFRESH_TIMER_INTERNAL`, the
minimum refresh timer interval in milliseconds.  The constants module
is not part of the given sources; §8.8 of the spec fixes the value to
100 ms. -/
def MIN_REFRESH_TIMER_INTERNAL : ℚ := 100

/-- `AddressRefreshHandler` state used by `get_batch` and
`_calc_refresh_time_interval`; tokens are modelled by identifiers. -/
structure AddressRefreshHandler where
  index : Nat
  refresh_burst_size : Nat
  tokens : List Nat
deriving DecidableEq

/-- The `for i in range(self.refresh_burst_size)` loop of `get_batch`
(lines 197-200): collect tokens from `index` on, stopping at the end of
the list; returns the collected tokens and the final index. -/
def get_batch_go (tokens : List Nat) (index : Nat) : Nat → List Nat × Nat
  | 0 => ([], index)
  | b + 1 =>
    if h : index < tokens.length then
      let r := get_batch_go tokens (index + 1) b
      (tokens.get ⟨index, h⟩ :: r.1, r.2)
    else ([], index)

/-- `AddressRefreshHandler.get_batch` (lines 193-201): reset the index
when it has run past the end, then collect up to `refresh_burst_size`
tokens. -/
def get_batch (h : AddressRefreshHandler) : List Nat × AddressRefreshHandler :=
  let idx0 := if h.tokens.length ≤ h.index then 0 else h.index
  let r := get_batch_go h.tokens idx0 h.refresh_burst_size
  (r.1, { h with index := r.2 })

/-- `AddressRefreshHandler._calc_refresh_time_interval` (lines
203-215): returns the new `(refresh_burst_size, interval)` pair
(interval in seconds, as stored by the code), `none` when Python would
raise `ZeroDivisionError` (`interval == 0`). -/
def calc_refresh_time_interval (refresh_period : ℚ) (refresh_tokens : List Nat)
    (burst0 : Nat) (interval0 : ℚ) : Option (Nat × ℚ) :=
  let total_refresh_count := refresh_tokens.length
  if 0 < total_refresh_count then
    let interval : Int := ⌊refresh_period / (total_refresh_count : ℚ)⌋
    if (interval : ℚ) < MIN_REFRESH_TIMER_INTERNAL then
      if interval = 0 then none
      else
        some ((⌈MIN_REFRESH_TIMER_INTERNAL / (interval : ℚ)⌉).toNat,
          MIN_REFRESH_TIMER_INTERNAL / 1000)
    else some (1, (interval : ℚ) / 1000)
  else some (burst0, interval0)

/-- `exceptions.PacketLengthExceed(cur_length, max_cap)`. -/
structure PacketLengthExceed where
  cur_length : Nat
  max_cap : Nat
deriving DecidableEq

/-- `mac_learning` (learning.py lines 308-324): the own MAC address is
given as its 12-character hex string; on success the calls to
`port_struct.send_packet` are returned, on failure the
`PacketLengthExceed` data.  The length check happens before any packet
is sent, so an error carries no sends. -/
def mac_learning (is_rx_port : Bool) (own_mac : String) (max_cap : Nat)
    (mac_learning_frame_count : Nat) : Except PacketLengthExceed (List String) :=
  if !is_rx_port then Except.ok []
  else
    let dest_mac := "FFFFFFFFFFFF"
    let four_f := "FFFF"
    let paddings := String.join (List.replicate 118 "00")
    let hex_data := dest_mac ++ own_mac ++ four_f ++ paddings
    let packet := "0x" ++ hex_data
    let cur_length := hex_data.length / 2
    if max_cap < cur_length then Except.error ⟨cur_length, max_cap⟩
    else Except.ok (List.replicate mac_learning_frame_count packet)

/-- A `should_quit` poll while sync is lost: `stop_on_los` is set, the
only port has `sync_status = false`, traffic is still running and the
guard time has not elapsed. -/
def c4Input : QuitInput :=
  { stop_on_los := true
    sync_statuses := [false]
    tx_traffic_statuses := [true]
    elapsed := 0
    actual_duration := 10 }

/-- A handler state reachable with three refresh tokens and burst size
2 (e.g. refresh_period = 150 ms): after one batch the index is 2. -/
def c7Handler : AddressRefreshHandler :=
  { index := 2, refresh_burst_size := 2, tokens := [10, 20, 30] }

/- ---------------------------------------------------------------
   Protocol segment profile model
   (pluginlib/plugin2544/model/m_protocol_segment.py)
   --------------------------------------------------------------- -/

/-- `const.SegmentType` (the tags routed on by the model). -/
inductive SegmentType where
  | ETHERNET | VLAN | IP | IPV6 | UDP | TCP | TCPCHECK | RAW
deriving DecidableEq

/-- `SegmentType.is_raw`. -/
def SegmentType.is_raw : SegmentType → Bool
  | SegmentType.RAW => true
  | _ => false

/-- `const.ModifierActionOption`. -/
inductive ModifierActionOption where
  | INC | DEC | RANDOM
deriving DecidableEq

/-- A field definition as returned by
`protocol_segments.get_field_definition`: its byte offset, bit offset
and bit length inside the segment. -/
structure FieldDefinition where
  byte_offset : Nat
  bit_offset : Nat
  bit_length : Nat
deriving DecidableEq

/-- `HwModifier` (m_protocol_segment.py lines 16-52); `byte_offset` and
`position` are the computed attributes, 0 before materialization. -/
structure HwModifier where
  field_name : String
  mask : String
  action : ModifierActionOption
  start_value : Int
  stop_value : Int
  step_value : Int
  repeat_count : Nat
  offset : Int
  byte_offset : Nat
  position : Int
deriving DecidableEq

/-- `FieldValueRange` (lines 55-118); `bit_length`, `bit_offset`,
`position` and `current_count` are the computed attributes. -/
structure FieldValueRange where
  field_name : String
  start_value : Nat
  stop_value : Nat
  step_value : Nat
  action : ModifierActionOption
  reset_for_each_port : Bool
  bit_length : Nat
  bit_offset : Nat
  position : Nat
  current_count : Nat
deriving DecidableEq

/-- `HeaderSegment` (lines 121-158); `segment_value` is the hex string
template. -/
structure HeaderSegment where
  segment_type : SegmentType
  segment_value : String
  hw_modifiers : List HwModifier
  field_value_ranges : List FieldValueRange
  segment_byte_offset : Nat
deriving DecidableEq

/-- The configuration errors raised during profile materialization:
`exceptions.FieldValueRangeExceed(field_name, can_max)` and a missing
field definition. -/
inductive BuildError where
  | fieldValueRangeExceed (field_name : String) (can_max : Nat)
  | fieldNotFound (field_name : String)
deriving DecidableEq

/-- `HeaderSegment.set_modifiers` (lines 128-139): on a non-raw
segment, look every modifier's field up in the segment definition and
write the field's byte offset into the modifier.  `gfd` models
`get_field_definition ∘ get_segment_definition`; a failed lookup is the
exception that call would raise. -/
def set_modifiers (gfd : SegmentType → String → Option FieldDefinition)
    (segment_type : SegmentType) :
    List HwModifier → Except BuildError (List HwModifier)
  | [] => Except.ok []
  | m :: rest =>
    match gfd segment_type m.field_name with
    | none => Except.error (BuildError.fieldNotFound m.field_name)
    | some fd =>
      match set_modifiers gfd segment_type rest with
      | Except.error e => Except.error e
      | Except.ok rest' => Except.ok ({ m with byte_offset := fd.byte_offset } :: rest')

/-- `HeaderSegment.set_field_value_ranges` (lines 141-158): on a
non-raw segment, copy each range's field bit length and bit offset from
the field definition and reject the range when
`max(start_value, stop_value) ≥ 2 ^ bit_length`. -/
def set_field_value_ranges (gfd : SegmentType → String → Option FieldDefinition)
    (segment_type : SegmentType) :
    List FieldValueRange → Except BuildError (List FieldValueRange)
  | [] => Except.ok []
  | f :: rest =>
    match gfd segment_type f.field_name with
    | none => Except.error (BuildError.fieldNotFound f.field_name)
    | some fd =>
      if 2 ^ fd.bit_length ≤ max f.start_value f.stop_value then
        Except.error (BuildError.fieldValueRangeExceed f.field_name (2 ^ fd.bit_length))
      else
        match set_field_value_ranges gfd segment_type rest with
        | Except.error e => Except.error e
        | Except.ok rest' =>
          Except.ok ({ f with bit_length := fd.bit_length, bit_offset := fd.bit_offset } :: rest')

/-- Building one `HeaderSegment`: run the two pydantic validators (in
field order) on the declared data.  Raw segments skip both. -/
def buildHeaderSegment (gfd : SegmentType → String → Option FieldDefinition)
    (h : HeaderSegment) : Except BuildError HeaderSegment :=
  if h.segment_type.is_raw then Except.ok h
  else
    match set_modifiers gfd h.segment_type h.hw_modifiers with
    | Except.error e => Except.error e
    | Except.ok mods =>
      match set_field_value_ranges gfd h.segment_type h.field_value_ranges with
      | Except.error e => Except.error e
      | Except.ok fvrs => Except.ok { h with hw_modifiers := mods, field_value_ranges := fvrs }

/-- Building every segment of a profile, failing at the first
validator exception. -/
def build_segments (gfd : SegmentType → String → Option FieldDefinition) :
    List HeaderSegment → Except BuildError (List HeaderSegment)
  | [] => Except.ok []
  | h :: rest =>
    match buildHeaderSegment gfd h with
    | Except.error e => Except.error e
    | Except.ok h' =>
      match build_segments gfd rest with
      | Except.error e => Except.error e
      | Except.ok rest' => Except.ok (h' :: rest')

/-- The inner loop of
`ProtocolSegmentProfileConfig.set_byte_offset` for one modifier (lines
175-178). -/
def setModPosition (current_byte_offset : Nat) (m : HwModifier) : HwModifier :=
  let p : Int := (current_byte_offset : Int) + (m.byte_offset : Int)
  let p :=
    if m.field_name = "Src IP Addr" ∨ m.field_name = "Dest IP Addr" then p + m.offset
    else p
  { m with position := p }

/-- The body of `set_byte_offset` for one segment (lines 169-178). -/
def setSegmentOffsets (current_byte_offset : Nat) (h : HeaderSegment) : HeaderSegment :=
  { h with
    segment_byte_offset := current_byte_offset
    field_value_ranges :=
      h.field_value_ranges.map
        (fun f => { f with position := current_byte_offset * 8 + f.bit_offset })
    hw_modifiers := h.hw_modifiers.map (setModPosition current_byte_offset) }

/-- `ProtocolSegmentProfileConfig.set_byte_offset` (lines 165-180):
walk the segments accumulating `current_byte_offset`, which grows by
`len(segment_value) // 2` after each segment. -/
def set_byte_offset : List HeaderSegment → Nat → List HeaderSegment
  | [], _ => []
  | h :: rest, current_byte_offset =>
    setSegmentOffsets current_byte_offset h ::
      set_byte_offset rest (current_byte_offset + h.segment_value.length / 2)

/-- `ProtocolSegmentProfileConfig` after materialization. -/
structure ProtocolSegmentProfileConfig where
  description : String
  header_segments : List HeaderSegment
deriving DecidableEq

/-- Materializing a `ProtocolSegmentProfileConfig` from declared
segments: per-segment validators first, then the profile's
`set_byte_offset` validator. -/
def build_profile (gfd : SegmentType → String → Option FieldDefinition)
    (raws : List HeaderSegment) : Except BuildError ProtocolSegmentProfileConfig :=
  match build_segments gfd raws with
  | Except.error e => Except.error e
  | Except.ok segs => Except.ok ⟨"", set_byte_offset segs 0⟩

/-- Sum of `len(segment_value) // 2` over the first `i` segments. -/
def sumLenTo (l : List HeaderSegment) (i : Nat) : Nat :=
  ((l.take i).map (fun h => h.segment_value.length / 2)).sum

/-- Whether an `Except` result is a success. -/
def isOkE {ε α : Type} : Except ε α → Bool
  | Except.ok _ => true
  | Except.error _ => false

/-- `true` iff the range's field exists and satisfies the §8.2 bound
`max(start, stop) < 2 ^ bit_length`. -/
def fvrOk (gfd : SegmentType → String → Option FieldDefinition)
    (segment_type : SegmentType) (f : FieldValueRange) : Bool :=
  match gfd segment_type f.field_name with
  | some fd => decide (max f.start_value f.stop_value < 2 ^ fd.bit_length)
  | none => false

/-- `true` iff the range's field exists and violates the §8.2 bound. -/
def fvrViolates (gfd : SegmentType → String → Option FieldDefinition)
    (segment_type : SegmentType) (f : FieldValueRange) : Bool :=
  match gfd segment_type f.field_name with
  | some fd => decide (2 ^ fd.bit_length ≤ max f.start_value f.stop_value)
  | none => false

/-- `true` iff building the segment cannot raise: the segment is raw,
or every modifier's field exists and every field-value-range's field
exists and satisfies the §8.2 bound. -/
def segAccepted (gfd : SegmentType → String → Option FieldDefinition)
    (h : HeaderSegment) : Bool :=
  h.segment_type.is_raw ||
    (h.hw_modifiers.all (fun m => (gfd h.segment_type m.field_name).isSome) &&
      h.field_value_ranges.all (fvrOk gfd h.segment_type))

/-- A concrete field-definition table (the Ethernet and IPv4 rows of
the driver's segment definitions), used to exercise the theorems. -/
def gfdDemo : SegmentType → String → Option FieldDefinition :=
  fun segment_type name =>
    match segment_type with
    | SegmentType.ETHERNET =>
      if name = "Dst MAC addr" then
        some { byte_offset := 0, bit_offset := 0, bit_length := 48 }
      else if name = "Src MAC addr" then
        some { byte_offset := 6, bit_offset := 48, bit_length := 48 }
      else none
    | SegmentType.IP =>
      if name = "Src IP Addr" then
        some { byte_offset := 12, bit_offset := 96, bit_length := 32 }
      else if name = "Dest IP Addr" then
        some { byte_offset := 16, bit_offset := 128, bit_length := 32 }
      else none
    | _ => none

/-- A declared Ethernet + IPv4 profile: a source-MAC modifier and a
destination-MAC field-value-range on the Ethernet segment, and a
destination-IP modifier (with fine offset 3) on the IP segment. -/
def c1Raws : List HeaderSegment :=
  [{ segment_type := SegmentType.ETHERNET
     segment_value := "000000000000000000000000FFFF"
     hw_modifiers :=
       [{ field_name := "Src MAC addr"
          mask := "0x00FF0000"
          action := ModifierActionOption.INC
          start_value := 0
          stop_value := 10
          step_value := 1
          repeat_count := 1
          offset := 0
          byte_offset := 0
          position := 0 }]
     field_value_ranges :=
       [{ field_name := "Dst MAC addr"
          start_value := 0
          stop_value := 100
          step_value := 1
          action := ModifierActionOption.INC
          reset_for_each_port := false
          bit_length := 0
          bit_offset := 0
          position := 0
          current_count := 0 }]
     segment_byte_offset := 0 },
   { segment_type := SegmentType.IP
     segment_value := "4500000000000000000000000000000000000000"
     hw_modifiers :=
       [{ field_name := "Dest IP Addr"
          mask := "0x00FF0000"
          action := ModifierActionOption.INC
          start_value := 1
          stop_value := 7
          step_value := 1
          repeat_count := 1
          offset := 3
          byte_offset := 0
          position := 0 }]
     field_value_ranges := []
     segment_byte_offset := 0 }]

/-- The materialized form of `c1Raws` under `gfdDemo`. -/
def c1Prof : ProtocolSegmentProfileConfig :=
  match build_profile gfdDemo c1Raws with
  | Except.ok p => p
  | Except.error _ => { description := "", header_segments := [] }

/-- An Ethernet segment whose field-value-range exceeds the 48-bit
field width (`2 ^ 48 ≤ max(start, stop)`). -/
def c5ViolSeg : HeaderSegment :=
  { segment_type := SegmentType.ETHERNET
    segment_value := "000000000000000000000000FFFF"
    hw_modifiers := []
    field_value_ranges :=
      [{ field_name := "Dst MAC addr"
         start_value := 281474976710656
         stop_value := 0
         step_value := 1
         action := ModifierActionOption.DEC
         reset_for_each_port := false
         bit_length := 0
         bit_offset := 0
         position := 0
         current_count := 0 }]
    segment_byte_offset := 0 }

theorem scenStep_fixed : scenStep scenFixed = scenFixed := by
  norm_num [scenStep, scenConf, scenStat, scenFixed,
    BackToBackBoutEntry.update_boundaries, BackToBackBoutEntry.update_left_bound,
    BackToBackBoutEntry.update_right_bound, BackToBackBoutEntry.compare_search_pointer]

theorem scenState_one : scenState 1 = scenFixed := by
  norm_num [scenState, scenStep, scenConf, scenStat, scenFixed,
    BackToBackBoutEntry.init, BackToBackBoutEntry.update_boundaries,
    BackToBackBoutEntry.update_left_bound, BackToBackBoutEntry.update_right_bound,
    BackToBackBoutEntry.compare_search_pointer]

theorem scenState_succ (k : Nat) : scenState (k + 1) = scenFixed := by
  induction k with
  | zero => exact scenState_one
  | succ n ih => rw [scenState, ih, scenStep_fixed]

/- ---------------------------------------------------------------
   Theorems: synchronized start (C3)
   --------------------------------------------------------------- -/

/-- Claim C3: when `start_traffic(port_sync=true)` runs with a mapping
of two or more chassis, it issues exactly one `traffic_sync` command
per chassis, each with `when` = that chassis's own local clock reading
plus 2 seconds and carrying that chassis's own (module, port) list, and
no per-port or chassis-level traffic command. -/
theorem start_traffic_multi_chassis (clock : String → Int)
    (mapping : List (String × List Nat)) (txPorts : List Nat)
    (hm : 2 ≤ mapping.length) :
    start_traffic clock mapping txPorts true =
      mapping.map (fun p => StartCmd.trafficSync p.1 (clock p.1 + 2) p.2) ∧
    ∀ c ∈ start_traffic clock mapping txPorts true,
      (∀ i, c ≠ StartCmd.portTraffic i) ∧
      (∀ t l, c ≠ StartCmd.chassisTraffic t l) := by
  have h1 : ¬mapping.length = 1 := by omega
  have he : start_traffic clock mapping txPorts true =
      mapping.map (fun p => StartCmd.trafficSync p.1 (clock p.1 + 2) p.2) := by
    simp [start_traffic, h1, start_traffic_sync]
  refine ⟨he, ?_⟩
  intro c hc
  rw [he] at hc
  simp only [List.mem_map] at hc
  obtain ⟨p, _, rfl⟩ := hc
  exact ⟨fun i => by simp, fun t l => by simp⟩

/-- Witness for C3: the §8.5 example, mapping = A ↦ [0,0,0,1],
B ↦ [1,2], chassis clocks 1000 and 2000. -/
theorem start_traffic_multi_chassis_witness :
    2 ≤ ([("A", [0, 0, 0, 1]), ("B", [1, 2])] : List (String × List Nat)).length ∧
    start_traffic (fun s => if s = "A" then 1000 else 2000)
        [("A", [0, 0, 0, 1]), ("B", [1, 2])] [0, 1] true =
      [StartCmd.trafficSync "A" 1002 [0, 0, 0, 1],
       StartCmd.trafficSync "B" 2002 [1, 2]] := by
  refine ⟨by decide, ?_⟩
  rw [(start_traffic_multi_chassis (fun s => if s = "A" then 1000 else 2000)
    [("A", [0, 0, 0, 1]), ("B", [1, 2])] [0, 1] (by decide)).1]
  decide

/- ---------------------------------------------------------------
   Theorems: quit on loss of signal (C4)
   --------------------------------------------------------------- -/

/-- Claim C4 counterexample: polling `should_quit` twice during one
single transition of `sync_status` to false sends two warnings, not
one — the code warns on every call while sync stays lost, refuting
"exactly once per transition". -/
theorem should_quit_warns_per_call :
    (should_quit c4Input).1 = true ∧
    warningCount [c4Input, c4Input] = 2 ∧
    ¬(warningCount [c4Input, c4Input] = 1) := by
  refine ⟨rfl, rfl, by decide⟩

/-- Claim C4 (amended): when `stop_on_los` is true and any port's
`sync_status` is false, `should_quit` returns true and emits a warning
on every call while sync stays lost — `n` consecutive calls in that
state emit `n` warnings. -/
theorem should_quit_los (q : QuitInput) (n : Nat) (h : los q = true) :
    (should_quit q).1 = true ∧ (should_quit q).2 = true ∧
    warningCount (List.replicate n q) = n := by
  have h2 : (should_quit q).2 = true := h
  have h1 : (should_quit q).1 = true := by
    simp [should_quit] at h2 ⊢
    simp [h2]
  refine ⟨h1, h2, ?_⟩
  have key : ∀ (m acc : Nat),
      (List.replicate m q).foldl (fun n q => n + (if (should_quit q).2 then 1 else 0)) acc
        = acc + m := by
    intro m
    induction m with
    | zero => intro acc; simp
    | succ k ih =>
      intro acc
      simp only [List.replicate_succ, List.foldl_cons, h2, if_pos]
      rw [ih]
      omega
  simpa [warningCount] using key n 0

/-- Witness for C4 (amended), at the concrete lost-sync state. -/
theorem should_quit_los_witness :
    los c4Input = true ∧
    ((should_quit c4Input).1 = true ∧ (should_quit c4Input).2 = true ∧
      warningCount (List.replicate 3 c4Input) = 3) :=
  ⟨by decide, should_quit_los c4Input 3 (by decide)⟩

/- ---------------------------------------------------------------
   Theorems: address-refresh batches (C7)
   --------------------------------------------------------------- -/

/-- The `get_batch` loop collects `min b (len − index)` tokens and
advances the index by that amount. -/
theorem get_batch_go_spec (tokens : List Nat) (b : Nat) : ∀ index : Nat,
    (get_batch_go tokens index b).1.length = min b (tokens.length - index) ∧
    (get_batch_go tokens index b).2 = index + min b (tokens.length - index) := by
  induction b with
  | zero => intro index; simp [get_batch_go]
  | succ n ih =>
    intro index
    by_cases h : index < tokens.length
    · have := ih (index + 1)
      simp only [get_batch_go, dif_pos h, List.length_cons, this.1, this.2]
      omega
    · simp only [get_batch_go, dif_neg h, List.length_nil]
      omega

/-- Claim C7 counterexample: with a non-empty token list, burst size 2
and index 2, `get_batch` returns a single token — not
`refresh_burst_size` tokens, refuting "returns exactly
refresh_burst_size tokens". -/
theorem get_batch_short_batch :
    c7Handler.tokens ≠ [] ∧
    (get_batch c7Handler).1.length = 1 ∧
    ¬((get_batch c7Handler).1.length = c7Handler.refresh_burst_size) := by
  refine ⟨by decide, rfl, by decide⟩

/-- Claim C7 (amended): on a non-empty token list, `get_batch` first
resets the index to 0 when it has run past the end, then returns
`min refresh_burst_size (len − index)` tokens — exactly
`refresh_burst_size` whenever that many remain — and advances the
index by the number of tokens returned. -/
theorem get_batch_spec (h : AddressRefreshHandler) (idx0 : Nat)
    (hne : h.tokens ≠ [])
    (hidx : idx0 = if h.tokens.length ≤ h.index then 0 else h.index) :
    (get_batch h).1.length = min h.refresh_burst_size (h.tokens.length - idx0) ∧
    (get_batch h).2.index = idx0 + (get_batch h).1.length ∧
    (idx0 + h.refresh_burst_size ≤ h.tokens.length →
      (get_batch h).1.length = h.refresh_burst_size) := by
  have hspec := get_batch_go_spec h.tokens h.refresh_burst_size idx0
  have h1 : (get_batch h).1 = (get_batch_go h.tokens idx0 h.refresh_burst_size).1 := by
    simp [get_batch, hidx]
  have h2 : (get_batch h).2.index = (get_batch_go h.tokens idx0 h.refresh_burst_size).2 := by
    simp [get_batch, hidx]
  rw [h1, h2, hspec.1, hspec.2]
  refine ⟨rfl, rfl, fun hle => ?_⟩
  omega

/-- Witness for C7 (amended): a fresh handler with three tokens and
burst size 2 returns a full batch of 2 and moves the index to 2. -/
theorem get_batch_spec_witness :
    (([10, 20, 30] : List Nat) ≠ [] ∧
      (0 : Nat) = if ([10, 20, 30] : List Nat).length ≤ 0 then 0 else 0) ∧
    (get_batch ⟨0, 2, [10, 20, 30]⟩).1.length = 2 := by
  refine ⟨⟨by decide, by decide⟩, ?_⟩
  have h := (get_batch_spec ⟨0, 2, [10, 20, 30]⟩ 0 (by decide) (by decide)).1
  rw [h]
  decide

/- ---------------------------------------------------------------
   Theorems: MAC-learning packet-length refusal (C8)
   --------------------------------------------------------------- -/

set_option maxRecDepth 40000 in
/-- The zero padding of the learning frame is 118 bytes. -/
theorem paddings_length : (String.join (List.replicate 118 "00")).length = 236 := by
  decide

set_option maxRecDepth 40000 in
/-- Claim C8 counterexample: the default learning frame is 132 bytes
(6 dmac + 6 smac + 2 ethertype + 118 padding), not 128 as the claim
states; on a port with `max_xmit_one_packet_length = 64` it raises
`PacketLengthExceed(132, 64)`. -/
theorem mac_learning_frame_is_132 :
    mac_learning true "AABBCCDDEEFF" 64 1 =
      Except.error { cur_length := 132, max_cap := 64 } ∧
    ¬((132 : Nat) = 128) := by
  exact ⟨rfl, by decide⟩

/-- Claim C8 (amended): `mac_learning` on an rx port rejects the
learning frame with `PacketLengthExceed` — before any packet is sent —
exactly when its 132-byte length exceeds the port's
`max_xmit_one_packet_length`; in particular a 64-byte cap raises. -/
theorem mac_learning_rejects (own_mac : String) (max_cap frames : Nat)
    (hmac : own_mac.length = 12) :
    (max_cap < 132 → mac_learning true own_mac max_cap frames =
      Except.error { cur_length := 132, max_cap := max_cap }) ∧
    (132 ≤ max_cap → isOkE (mac_learning true own_mac max_cap frames) = true) ∧
    mac_learning true own_mac 64 frames =
      Except.error { cur_length := 132, max_cap := 64 } := by
  have hf12 : ("FFFFFFFFFFFF" : String).length = 12 := by decide
  have hf4 : ("FFFF" : String).length = 4 := by decide
  have hlen : ("FFFFFFFFFFFF" ++ own_mac ++ "FFFF" ++
      String.join (List.replicate 118 "00")).length / 2 = 132 := by
    simp only [String.length_append, hmac, hf12, hf4, paddings_length]
  constructor
  · intro hcap
    simp only [mac_learning, Bool.not_true, Bool.false_eq_true, if_false, hlen,
      if_pos hcap]
  constructor
  · intro hcap
    have : ¬ max_cap < 132 := by omega
    simp only [mac_learning, Bool.not_true, Bool.false_eq_true, if_false, hlen,
      if_neg this, isOkE]
  · simp only [mac_learning, Bool.not_true, Bool.false_eq_true, if_false, hlen]
    norm_num

/-- Witness for C8 (amended), with a concrete MAC address. -/
theorem mac_learning_rejects_witness :
    ("AABBCCDDEEFF" : String).length = 12 ∧
    mac_learning true "AABBCCDDEEFF" 64 2 =
      Except.error { cur_length := 132, max_cap := 64 } :=
  ⟨by decide, (mac_learning_rejects "AABBCCDDEEFF" 64 2 (by decide)).2.2⟩

/- ---------------------------------------------------------------
   Theorems: address-refresh interval (C6)
   --------------------------------------------------------------- -/

/-- Claim C6: given N > 0 active tokens, `_calc_refresh_time_interval`
computes interval = ⌊refresh_period_ms / N⌋ with burst size 1, and when
that floor is below `MIN_REFRESH_TIMER_INTERNAL` it instead sets
burst_size = ⌈MIN_REFRESH_TIMER_INTERNAL / ⌊refresh_period_ms / N⌋⌉ and
clamps the interval to the minimum (the stored `self.interval` is the
millisecond value divided by 1000); refresh_period = 1000 ms with 5
tokens gives (1, 200 ms) and refresh_period = 50 ms with 5 tokens gives
(10, 100 ms). -/
theorem calc_refresh_interval_spec (p : ℚ) (toks : List Nat) (b0 : Nat) (i0 : ℚ)
    (hn : 0 < toks.length)
    (hfl : 1 ≤ ⌊p / (toks.length : ℚ)⌋) :
    (MIN_REFRESH_TIMER_INTERNAL ≤ (⌊p / (toks.length : ℚ)⌋ : ℚ) →
      calc_refresh_time_interval p toks b0 i0 =
        some (1, (⌊p / (toks.length : ℚ)⌋ : ℚ) / 1000)) ∧
    ((⌊p / (toks.length : ℚ)⌋ : ℚ) < MIN_REFRESH_TIMER_INTERNAL →
      calc_refresh_time_interval p toks b0 i0 =
        some ((⌈MIN_REFRESH_TIMER_INTERNAL / ((⌊p / (toks.length : ℚ)⌋ : ℚ))⌉).toNat,
          MIN_REFRESH_TIMER_INTERNAL / 1000)) ∧
    calc_refresh_time_interval 1000 [0, 1, 2, 3, 4] 1 0 = some (1, 200 / 1000) ∧
    calc_refresh_time_interval 50 [0, 1, 2, 3, 4] 1 0 = some (10, 100 / 1000) := by
  refine ⟨?_, ?_, ?_, ?_⟩
  · intro hge
    have hnot : ¬((⌊p / (toks.length : ℚ)⌋ : ℚ) < MIN_REFRESH_TIMER_INTERNAL) :=
      not_lt.mpr hge
    simp only [calc_refresh_time_interval, if_pos hn, if_neg hnot]
  · intro hlt
    have hne : ¬(⌊p / (toks.length : ℚ)⌋ = 0) := by omega
    simp only [calc_refresh_time_interval, if_pos hn, if_pos hlt, if_neg hne]
  · norm_num [calc_refresh_time_interval, MIN_REFRESH_TIMER_INTERNAL]
  · norm_num [calc_refresh_time_interval, MIN_REFRESH_TIMER_INTERNAL]
    decide

/-- Witness for C6, at the §8.8 inputs. -/
theorem calc_refresh_interval_spec_witness :
    (0 < ([0, 1, 2, 3, 4] : List Nat).length ∧
      1 ≤ ⌊(1000 : ℚ) / (([0, 1, 2, 3, 4] : List Nat).length : ℚ)⌋) ∧
    calc_refresh_time_interval 1000 [0, 1, 2, 3, 4] 1 0 = some (1, 200 / 1000) := by
  refine ⟨⟨by norm_num, by norm_num⟩, ?_⟩
  exact (calc_refresh_interval_spec 1000 [0, 1, 2, 3, 4] 1 0 (by norm_num)
    (by norm_num)).2.2.1

/- ---------------------------------------------------------------
   Theorems: build_map (C10)
   --------------------------------------------------------------- -/

/-- Appending under a key makes that key's entry grow by the value. -/
theorem dictGet_dictAppend_same (m : List (String × List Nat)) (k : String)
    (v : List Nat) :
    dictGet (dictAppend m k v) k = some ((dictGet m k).getD [] ++ v) := by
  induction m with
  | nil => simp [dictAppend, dictGet]
  | cons h t ih =>
    obtain ⟨k', v'⟩ := h
    by_cases hk : k' = k
    · subst hk
      simp [dictAppend, dictGet]
    · simp [dictAppend, dictGet, hk, ih]

/-- Appending under a key leaves other keys' entries unchanged. -/
theorem dictGet_dictAppend_ne (m : List (String × List Nat)) (k c : String)
    (v : List Nat) (h : ¬(k = c)) :
    dictGet (dictAppend m k v) c = dictGet m c := by
  induction m with
  | nil => simp [dictAppend, dictGet, h]
  | cons hd t ih =>
    obtain ⟨k', v'⟩ := hd
    by_cases hk : k' = k
    · subst hk
      simp [dictAppend, dictGet, h]
    · have h' : ¬(c = k) := fun hh => h hh.symm
      by_cases hc : k' = c
      · simp [dictAppend, dictGet, hk, hc, h']
      · simp [dictAppend, dictGet, hk, hc, ih]

/-- Evaluation of a `flatPairs` head. -/
theorem flatPairs_cons (c : String) (p : RMPort) (t : List RMPort) :
    flatPairs c (p :: t) =
      if p.port_identity.tester_id = c then
        [p.port_identity.module_index, p.port_identity.port_index] ++ flatPairs c t
      else flatPairs c t := by
  by_cases hc : p.port_identity.tester_id = c
  · simp [flatPairs, List.filter_cons, hc]
  · simp [flatPairs, List.filter_cons, hc]

/-- The `build_map` fold, characterized for an arbitrary starting
dictionary. -/
theorem dictGet_fold_append (l : List RMPort) :
    ∀ (m : List (String × List Nat)) (c : String),
    dictGet (l.foldl (fun m p => dictAppend m p.port_identity.tester_id
        [p.port_identity.module_index, p.port_identity.port_index]) m) c =
      match dictGet m c with
      | some v => some (v ++ flatPairs c l)
      | none =>
        if (l.filter (fun p => p.port_identity.tester_id = c)).isEmpty then none
        else some (flatPairs c l) := by
  induction l with
  | nil =>
    intro m c
    cases h : dictGet m c <;> simp [flatPairs, h]
  | cons p t ih =>
    intro m c
    simp only [List.foldl_cons]
    rw [ih]
    by_cases hc : p.port_identity.tester_id = c
    · subst hc
      rw [dictGet_dictAppend_same]
      cases h : dictGet m p.port_identity.tester_id with
      | none =>
        simp [h, flatPairs_cons, List.filter_cons]
      | some v =>
        simp [h, flatPairs_cons, List.filter_cons]
    · rw [dictGet_dictAppend_ne m _ c _ hc]
      cases h : dictGet m c with
      | none => simp [h, flatPairs_cons, hc, List.filter_cons]
      | some v => simp [h, flatPairs_cons, hc, List.filter_cons]

/-- Claim C10: `build_map` populates the chassis mapping from
tx-capable ports only — each chassis id present maps to exactly the
flattened (module_index, port_index) pairs of the ports whose
configuration has `is_tx_port`, in configuration order, and ports
without `is_tx_port` (in particular rx-only ports) contribute to no
chassis's list. -/
theorem build_map_spec (ports : List RMPort) :
    (∀ c, dictGet (build_map ports) c =
      if ((tx_ports ports).filter (fun p => p.port_identity.tester_id = c)).isEmpty
      then none else some (flatFor c ports)) ∧
    (∀ p ∈ tx_ports ports, p.port_conf.is_tx_port = true) ∧
    (∀ p ∈ ports, p.port_conf.is_tx_port = false → p ∉ tx_ports ports) := by
  refine ⟨?_, ?_, ?_⟩
  · intro c
    have h := dictGet_fold_append (tx_ports ports) [] c
    simp only [build_map, flatFor]
    rw [h]
    simp [dictGet]
  · intro p hp
    exact (List.mem_filter.mp hp).2
  · intro p _ hfalse hmem
    have := (List.mem_filter.mp hmem).2
    simp [hfalse] at this

/-- Witness for C10: on the demo ports, chassis A maps to [0,0,0,1],
chassis B to [1,2] (the rx-only port (9,9) is absent), and an unknown
chassis is unmapped. -/
theorem build_map_spec_witness :
    dictGet (build_map c10Ports) "A" = some [0, 0, 0, 1] ∧
    dictGet (build_map c10Ports) "B" = some [1, 2] ∧
    dictGet (build_map c10Ports) "C" = none := by
  have h := (build_map_spec c10Ports).1
  rw [h "A", h "B", h "C"]
  refine ⟨by decide, by decide, by decide⟩

/- ---------------------------------------------------------------
   Theorems: back-to-back controller (C2, C9)
   --------------------------------------------------------------- -/

/-- `update_boundaries` with no statistic only raises
`port_should_continue`. -/
theorem update_boundaries_none (conf : BackToBackConfig) (e : BackToBackBoutEntry) :
    BackToBackBoutEntry.update_boundaries conf none e =
      { e with port_should_continue := true, port_test_passed := false } := rfl

/-- `update_boundaries` with a non-final statistic only raises
`port_should_continue`. -/
theorem update_boundaries_nonfinal (conf : BackToBackConfig) (st : Statistic)
    (e : BackToBackBoutEntry) (hf : st.is_final = false) :
    BackToBackBoutEntry.update_boundaries conf (some st) e =
      { e with port_should_continue := true, port_test_passed := false } := by
  simp [BackToBackBoutEntry.update_boundaries, hf]

/-- `update_boundaries` when the bounds are out of order (final
statistic): only `current = next` happens. -/
theorem update_boundaries_unordered (conf : BackToBackConfig) (st : Statistic)
    (e : BackToBackBoutEntry) (hf : st.is_final = true)
    (hlr : ¬(e.left_bound ≤ e.right_bound)) :
    BackToBackBoutEntry.update_boundaries conf (some st) e =
      { e with
        current := e.next
        port_should_continue := false
        port_test_passed := false } := by
  simp [BackToBackBoutEntry.update_boundaries, hf, hlr]

/-- `update_boundaries` on a final zero-loss statistic: the left bound
moves to `current`, `next` (and then `current`) becomes the midpoint of
the new bounds, and the iteration passes exactly when the midpoint is
within `burst_resolution` of the old `current`.  (The snap performed
inside `compare_search_pointer` is overwritten by the final
`current = next` of `update_boundaries`.) -/
theorem update_boundaries_zero_loss (conf : BackToBackConfig) (st : Statistic)
    (e : BackToBackBoutEntry) (hf : st.is_final = true)
    (hlr : e.left_bound ≤ e.right_bound) (hloss : st.lossRate = 0) :
    BackToBackBoutEntry.update_boundaries conf (some st) e =
      { left_bound := e.current
        right_bound := e.right_bound
        current := (e.current + e.right_bound) / 2
        next := (e.current + e.right_bound) / 2
        last_move := -1
        port_should_continue :=
          !decide (|(e.current + e.right_bound) / 2 - e.current| ≤ conf.burst_resolution)
        port_test_passed :=
          decide (|(e.current + e.right_bound) / 2 - e.current| ≤ conf.burst_resolution) } := by
  simp only [BackToBackBoutEntry.update_boundaries, hf, hloss,
    BackToBackBoutEntry.update_left_bound, BackToBackBoutEntry.compare_search_pointer,
    Bool.not_true, Bool.false_eq_true, if_false, if_true, if_pos hlr]
  split_ifs with h1 h2 h3 <;> simp_all

/-- `update_boundaries` on a final lossy statistic: the right bound
moves to `current`, `next` (and then `current`) becomes the midpoint of
the new bounds, and the iteration passes exactly when the midpoint is
within `burst_resolution` of the old `current`. -/
theorem update_boundaries_lossy (conf : BackToBackConfig) (st : Statistic)
    (e : BackToBackBoutEntry) (hf : st.is_final = true)
    (hlr : e.left_bound ≤ e.right_bound) (hloss : ¬(st.lossRate = 0)) :
    BackToBackBoutEntry.update_boundaries conf (some st) e =
      { left_bound := e.left_bound
        right_bound := e.current
        current := (e.left_bound + e.current) / 2
        next := (e.left_bound + e.current) / 2
        last_move := 1
        port_should_continue :=
          !decide (|(e.left_bound + e.current) / 2 - e.current| ≤ conf.burst_resolution)
        port_test_passed :=
          decide (|(e.left_bound + e.current) / 2 - e.current| ≤ conf.burst_resolution) } := by
  simp only [BackToBackBoutEntry.update_boundaries, hf, hloss,
    BackToBackBoutEntry.update_right_bound, BackToBackBoutEntry.compare_search_pointer,
    Bool.not_true, Bool.false_eq_true, if_false, if_true, if_pos hlr]
  split_ifs with h1 h2 h3 <;> simp_all

/-- The strengthened invariant is preserved by `update_boundaries`,
whatever statistic the port reports. -/
theorem b2bInvS_update (conf : BackToBackConfig) (stat : Option Statistic)
    (e : BackToBackBoutEntry) (h : b2bInvS e) :
    b2bInvS (BackToBackBoutEntry.update_boundaries conf stat e) := by
  obtain ⟨⟨h0, hlr, hln, hnr⟩, hlc, hcr⟩ := h
  cases stat with
  | none =>
    rw [update_boundaries_none]
    exact ⟨⟨h0, hlr, hln, hnr⟩, hlc, hcr⟩
  | some st =>
    by_cases hf : st.is_final = true
    · by_cases hloss : st.lossRate = 0
      · rw [update_boundaries_zero_loss conf st e hf hlr hloss]
        simp only [b2bInvS, b2bInv]
        refine ⟨⟨?_, ?_, ?_, ?_⟩, ?_, ?_⟩ <;> linarith
      · rw [update_boundaries_lossy conf st e hf hlr hloss]
        simp only [b2bInvS, b2bInv]
        refine ⟨⟨?_, ?_, ?_, ?_⟩, ?_, ?_⟩ <;> linarith
    · rw [update_boundaries_nonfinal conf st e (by simpa using hf)]
      exact ⟨⟨h0, hlr, hln, hnr⟩, hlc, hcr⟩

/-- Claim C9: for every `BackToBackBoutEntry` constructed with
`actual_duration ≥ 0` and `rate ≥ 0`, the invariant
`0 ≤ left_bound ≤ right_bound` with `next` between the bounds holds
after construction and is preserved by every `update_boundaries` call,
whatever sequence of statistics (absent, non-final, zero-loss or lossy)
the port reports. -/
theorem b2b_invariant (conf : BackToBackConfig) (rate : ℚ)
    (stats : List (Option Statistic))
    (hd : 0 ≤ conf.actual_duration) (hr : 0 ≤ rate) :
    b2bInv (stats.foldl
      (fun e stat => BackToBackBoutEntry.update_boundaries conf stat e)
      (BackToBackBoutEntry.init conf rate)) := by
  have hb : 0 ≤ conf.actual_duration * rate / 100 :=
    div_nonneg (mul_nonneg hd hr) (by norm_num)
  have hinit : b2bInvS (BackToBackBoutEntry.init conf rate) := by
    simp only [b2bInvS, b2bInv, BackToBackBoutEntry.init]
    exact ⟨⟨le_refl 0, hb, hb, le_refl _⟩, hb, le_refl _⟩
  have hfold : ∀ (l : List (Option Statistic)) (x : BackToBackBoutEntry),
      b2bInvS x →
      b2bInvS (l.foldl
        (fun e stat => BackToBackBoutEntry.update_boundaries conf stat e) x) := by
    intro l
    induction l with
    | nil => intro x hx; simpa using hx
    | cons s t ih =>
      intro x hx
      simpa using ih _ (b2bInvS_update conf s x hx)
  exact (hfold stats _ hinit).1

/-- Witness for C9: the invariant after one zero-loss final poll and
one absent poll, duration 2 s and rate 100 %. -/
theorem b2b_invariant_witness :
    ((0 : ℚ) ≤ ({ actual_duration := 2, burst_resolution := 1 } :
        BackToBackConfig).actual_duration ∧ (0 : ℚ) ≤ 100) ∧
    b2bInv (([some { is_final := true, lossRate := 0 }, none] :
        List (Option Statistic)).foldl
      (fun e stat => BackToBackBoutEntry.update_boundaries
        { actual_duration := 2, burst_resolution := 1 } stat e)
      (BackToBackBoutEntry.init { actual_duration := 2, burst_resolution := 1 } 100)) := by
  refine ⟨⟨by norm_num, by norm_num⟩, ?_⟩
  exact b2b_invariant { actual_duration := 2, burst_resolution := 1 } 100
    [some { is_final := true, lossRate := 0 }, none] (by norm_num) (by norm_num)

/-- Claim C2 counterexample: in the §8.7 scenario (actual_duration =
2 s, rate = 100 %, burst_resolution = 1, zero loss for bursts ≤ 150)
the controller's `current` equals 2 — the initial right bound
`actual_duration · rate / 100` — at every iteration count up to
⌈log2 200⌉ = 8, so it never converges to 150 as claimed. -/
theorem back_to_back_scenario_stays_at_2 :
    (scenState 0).current = 2 ∧ (scenState 1).current = 2 ∧
    (scenState 2).current = 2 ∧ (scenState 3).current = 2 ∧
    (scenState 4).current = 2 ∧ (scenState 5).current = 2 ∧
    (scenState 6).current = 2 ∧ (scenState 7).current = 2 ∧
    (scenState 8).current = 2 ∧ (scenState 8).port_test_passed = true ∧
    ¬((2 : ℚ) = 150) := by
  have h1 : scenState 1 = scenFixed := scenState_succ 0
  have h2 : scenState 2 = scenFixed := scenState_succ 1
  have h3 : scenState 3 = scenFixed := scenState_succ 2
  have h4 : scenState 4 = scenFixed := scenState_succ 3
  have h5 : scenState 5 = scenFixed := scenState_succ 4
  have h6 : scenState 6 = scenFixed := scenState_succ 5
  have h7 : scenState 7 = scenFixed := scenState_succ 6
  have h8 : scenState 8 = scenFixed := scenState_succ 7
  refine ⟨?_, ?_, ?_, ?_, ?_, ?_, ?_, ?_, ?_, ?_, by norm_num⟩
  · norm_num [scenState, BackToBackBoutEntry.init, scenConf]
  · rw [h1]; rfl
  · rw [h2]; rfl
  · rw [h3]; rfl
  · rw [h4]; rfl
  · rw [h5]; rfl
  · rw [h6]; rfl
  · rw [h7]; rfl
  · rw [h8]; rfl
  · rw [h8]; rfl

/-- Claim C2 (amended): a `BackToBackBoutEntry` starts with
`current = next = right_bound = actual_duration · rate / 100` and
`left_bound = 0`; each `update_boundaries` call with a final statistic
(while the bounds are ordered) moves `left_bound` to `current` when
`loss_ratio` is 0 and `right_bound` to `current` otherwise, sets `next`
to the midpoint of the new bounds (and ends with `current = next`,
which overwrites the snap done inside `compare_search_pointer`), and
sets `port_test_passed` exactly when `|next − current| ≤
burst_resolution`; in the §8.7 scenario (actual_duration = 2 s, rate =
100 %, burst_resolution = 1, zero loss for bursts ≤ 150) the controller
converges to `current = 2` — the initial right bound — with
`port_test_passed = true` after 1 ≤ ⌈log2 200⌉ iteration. -/
theorem back_to_back_search_spec (conf : BackToBackConfig) (rate : ℚ)
    (st : Statistic) (e : BackToBackBoutEntry)
    (hf : st.is_final = true) (hlr : e.left_bound ≤ e.right_bound) :
    ((BackToBackBoutEntry.init conf rate).current = conf.actual_duration * rate / 100 ∧
      (BackToBackBoutEntry.init conf rate).next = conf.actual_duration * rate / 100 ∧
      (BackToBackBoutEntry.init conf rate).right_bound = conf.actual_duration * rate / 100 ∧
      (BackToBackBoutEntry.init conf rate).left_bound = 0) ∧
    (st.lossRate = 0 →
      (BackToBackBoutEntry.update_boundaries conf (some st) e).left_bound = e.current ∧
      (BackToBackBoutEntry.update_boundaries conf (some st) e).right_bound = e.right_bound) ∧
    (¬(st.lossRate = 0) →
      (BackToBackBoutEntry.update_boundaries conf (some st) e).right_bound = e.current ∧
      (BackToBackBoutEntry.update_boundaries conf (some st) e).left_bound = e.left_bound) ∧
    (BackToBackBoutEntry.update_boundaries conf (some st) e).next =
      ((BackToBackBoutEntry.update_boundaries conf (some st) e).left_bound +
        (BackToBackBoutEntry.update_boundaries conf (some st) e).right_bound) / 2 ∧
    (BackToBackBoutEntry.update_boundaries conf (some st) e).current =
      (BackToBackBoutEntry.update_boundaries conf (some st) e).next ∧
    ((BackToBackBoutEntry.update_boundaries conf (some st) e).port_test_passed = true ↔
      |(BackToBackBoutEntry.update_boundaries conf (some st) e).next - e.current| ≤
        conf.burst_resolution) ∧
    ((scenState 1).current = 2 ∧ (scenState 1).port_test_passed = true ∧ (1 : ℕ) ≤ 8) := by
  refine ⟨⟨rfl, rfl, rfl, rfl⟩, ?_, ?_, ?_, ?_, ?_, ?_, ?_, by norm_num⟩
  · intro hloss
    rw [update_boundaries_zero_loss conf st e hf hlr hloss]
    exact ⟨rfl, rfl⟩
  · intro hloss
    rw [update_boundaries_lossy conf st e hf hlr hloss]
    exact ⟨rfl, rfl⟩
  · by_cases hloss : st.lossRate = 0
    · rw [update_boundaries_zero_loss conf st e hf hlr hloss]
    · rw [update_boundaries_lossy conf st e hf hlr hloss]
  · by_cases hloss : st.lossRate = 0
    · rw [update_boundaries_zero_loss conf st e hf hlr hloss]
    · rw [update_boundaries_lossy conf st e hf hlr hloss]
  · by_cases hloss : st.lossRate = 0
    · rw [update_boundaries_zero_loss conf st e hf hlr hloss]
      simp
    · rw [update_boundaries_lossy conf st e hf hlr hloss]
      simp
  · rw [scenState_one]; rfl
  · rw [scenState_one]; rfl

/-- Witness for C2 (amended): the first scenario iteration, applied at
the construction state. -/
theorem back_to_back_search_spec_witness :
    (({ is_final := true, lossRate := 0 } : Statistic).is_final = true ∧
      (BackToBackBoutEntry.init scenConf 100).left_bound ≤
        (BackToBackBoutEntry.init scenConf 100).right_bound) ∧
    (BackToBackBoutEntry.update_boundaries scenConf
        (some { is_final := true, lossRate := 0 })
        (BackToBackBoutEntry.init scenConf 100)).current =
      (BackToBackBoutEntry.update_boundaries scenConf
        (some { is_final := true, lossRate := 0 })
        (BackToBackBoutEntry.init scenConf 100)).next := by
  have hlr : (BackToBackBoutEntry.init scenConf 100).left_bound ≤
      (BackToBackBoutEntry.init scenConf 100).right_bound := by
    norm_num [BackToBackBoutEntry.init, scenConf]
  exact ⟨⟨rfl, hlr⟩,
    (back_to_back_search_spec scenConf 100 { is_final := true, lossRate := 0 }
      (BackToBackBoutEntry.init scenConf 100) rfl hlr).2.2.2.2.1⟩

/- ---------------------------------------------------------------
   Theorems: protocol segment offsets (C1) and field range guard (C5)
   --------------------------------------------------------------- -/

/-- `set_byte_offset` preserves the number of segments. -/
theorem set_byte_offset_length (l : List HeaderSegment) :
    ∀ off, (set_byte_offset l off).length = l.length := by
  induction l with
  | nil => intro off; rfl
  | cons h t ih => intro off; simp [set_byte_offset, ih]

/-- `set_byte_offset` preserves the byte lengths of the segments. -/
theorem set_byte_offset_map_len (l : List HeaderSegment) :
    ∀ off, (set_byte_offset l off).map (fun h => h.segment_value.length / 2) =
      l.map (fun h => h.segment_value.length / 2) := by
  induction l with
  | nil => intro off; rfl
  | cons h t ih => intro off; simp [set_byte_offset, setSegmentOffsets, ih]

/-- Prefix byte sums are unchanged by `set_byte_offset`. -/
theorem sumLenTo_set_byte_offset (l : List HeaderSegment) (off i : Nat) :
    sumLenTo (set_byte_offset l off) i = sumLenTo l i := by
  unfold sumLenTo
  rw [List.map_take, List.map_take, set_byte_offset_map_len l off]

/-- Pointwise description of `set_byte_offset`: segment `i` is the
input segment with offsets materialized at `off` plus the byte lengths
of the preceding segments. -/
theorem set_byte_offset_get? (l : List HeaderSegment) :
    ∀ (off i : Nat), (set_byte_offset l off)[i]? =
      (l[i]?).map (setSegmentOffsets (off + sumLenTo l i)) := by
  induction l with
  | nil => intro off i; simp [set_byte_offset]
  | cons h t ih =>
    intro off i
    cases i with
    | zero => simp [set_byte_offset, sumLenTo]
    | succ j =>
      have hs : sumLenTo (h :: t) (j + 1) =
          h.segment_value.length / 2 + sumLenTo t j := by
        simp [sumLenTo, List.take_succ_cons]
      simp only [set_byte_offset, List.getElem?_cons_succ,
        ih (off + h.segment_value.length / 2) j, hs, Nat.add_assoc]

/-- Every modifier produced by a successful `set_modifiers` run carries
the byte offset of its field's definition. -/
theorem set_modifiers_mem (gfd : SegmentType → String → Option FieldDefinition)
    (st : SegmentType) :
    ∀ (mods mods' : List HwModifier),
      set_modifiers gfd st mods = Except.ok mods' →
      ∀ m' ∈ mods', ∃ fd, gfd st m'.field_name = some fd ∧
        m'.byte_offset = fd.byte_offset := by
  intro mods
  induction mods with
  | nil =>
    intro mods' h m' hm'
    simp only [set_modifiers, Except.ok.injEq] at h
    subst h
    simp at hm'
  | cons m rest ih =>
    intro mods' h m' hm'
    simp only [set_modifiers] at h
    cases hg : gfd st m.field_name with
    | none => rw [hg] at h; exact absurd h (by simp)
    | some fd =>
      rw [hg] at h
      cases hr : set_modifiers gfd st rest with
      | error e => rw [hr] at h; exact absurd h (by simp)
      | ok rest' =>
        rw [hr] at h
        simp only [Except.ok.injEq] at h
        subst h
        rcases List.mem_cons.mp hm' with h1 | h2
        · subst h1
          exact ⟨fd, hg, rfl⟩
        · exact ih rest' hr m' h2

/-- Every range produced by a successful `set_field_value_ranges` run
carries its field's bit offset and bit length and satisfies the §8.2
bound. -/
theorem set_field_value_ranges_mem
    (gfd : SegmentType → String → Option FieldDefinition) (st : SegmentType) :
    ∀ (fvrs fvrs' : List FieldValueRange),
      set_field_value_ranges gfd st fvrs = Except.ok fvrs' →
      ∀ f' ∈ fvrs', ∃ fd, gfd st f'.field_name = some fd ∧
        f'.bit_offset = fd.bit_offset ∧ f'.bit_length = fd.bit_length ∧
        max f'.start_value f'.stop_value < 2 ^ fd.bit_length := by
  intro fvrs
  induction fvrs with
  | nil =>
    intro fvrs' h f' hf'
    simp only [set_field_value_ranges, Except.ok.injEq] at h
    subst h
    simp at hf'
  | cons f rest ih =>
    intro fvrs' h f' hf'
    simp only [set_field_value_ranges] at h
    split at h
    · exact absurd h (by simp)
    · rename_i fd hg
      split at h
      · exact absurd h (by simp)
      · rename_i hb
        split at h
        · exact absurd h (by simp)
        · rename_i rest' hr
          simp only [Except.ok.injEq] at h
          subst h
          rcases List.mem_cons.mp hf' with h1 | h2
          · subst h1
            refine ⟨fd, hg, rfl, rfl, ?_⟩
            show max f.start_value f.stop_value < 2 ^ fd.bit_length
            exact Nat.not_le.mp hb
          · exact ih rest' hr f' h2

/-- Successful segment materialization: the segment type is preserved
and on non-raw segments every modifier and every range carries its
field definition's data. -/
theorem buildHeaderSegment_ok (gfd : SegmentType → String → Option FieldDefinition)
    (r s : HeaderSegment) (h : buildHeaderSegment gfd r = Except.ok s) :
    s.segment_type = r.segment_type ∧
    s.segment_value = r.segment_value ∧
    (s.segment_type.is_raw = false →
      (∀ m ∈ s.hw_modifiers, ∃ fd, gfd s.segment_type m.field_name = some fd ∧
        m.byte_offset = fd.byte_offset) ∧
      (∀ f ∈ s.field_value_ranges, ∃ fd, gfd s.segment_type f.field_name = some fd ∧
        f.bit_offset = fd.bit_offset ∧ f.bit_length = fd.bit_length ∧
        max f.start_value f.stop_value < 2 ^ fd.bit_length)) := by
  unfold buildHeaderSegment at h
  by_cases hraw : r.segment_type.is_raw
  · rw [if_pos hraw] at h
    simp only [Except.ok.injEq] at h
    subst h
    refine ⟨rfl, rfl, fun hfalse => ?_⟩
    rw [hraw] at hfalse
    exact absurd hfalse (by simp)
  · rw [if_neg hraw] at h
    cases hm : set_modifiers gfd r.segment_type r.hw_modifiers with
    | error e => rw [hm] at h; exact absurd h (by simp)
    | ok mods =>
      rw [hm] at h
      cases hfv : set_field_value_ranges gfd r.segment_type r.field_value_ranges with
      | error e => rw [hfv] at h; exact absurd h (by simp)
      | ok fvrs =>
        rw [hfv] at h
        simp only [Except.ok.injEq] at h
        subst h
        refine ⟨rfl, rfl, fun _ => ⟨?_, ?_⟩⟩
        · exact set_modifiers_mem gfd r.segment_type r.hw_modifiers mods hm
        · exact set_field_value_ranges_mem gfd r.segment_type
            r.field_value_ranges fvrs hfv

/-- Every segment of a successfully built list comes from a successful
`buildHeaderSegment`. -/
theorem build_segments_mem (gfd : SegmentType → String → Option FieldDefinition) :
    ∀ (raws segs : List HeaderSegment),
      build_segments gfd raws = Except.ok segs →
      ∀ s ∈ segs, ∃ r, buildHeaderSegment gfd r = Except.ok s := by
  intro raws
  induction raws with
  | nil =>
    intro segs h s hs
    simp only [build_segments, Except.ok.injEq] at h
    subst h
    simp at hs
  | cons r rest ih =>
    intro segs h s hs
    simp only [build_segments] at h
    cases hb : buildHeaderSegment gfd r with
    | error e => rw [hb] at h; exact absurd h (by simp)
    | ok s0 =>
      rw [hb] at h
      cases hr : build_segments gfd rest with
      | error e => rw [hr] at h; exact absurd h (by simp)
      | ok rest' =>
        rw [hr] at h
        simp only [Except.ok.injEq] at h
        subst h
        rcases List.mem_cons.mp hs with h1 | h2
        · subst h1; exact ⟨r, hb⟩
        · exact ih rest' hr s h2

/-- Inversion of a successful `build_profile`. -/
theorem build_profile_ok (gfd : SegmentType → String → Option FieldDefinition)
    (raws : List HeaderSegment) (prof : ProtocolSegmentProfileConfig)
    (h : build_profile gfd raws = Except.ok prof) :
    ∃ segs, build_segments gfd raws = Except.ok segs ∧
      prof.header_segments = set_byte_offset segs 0 := by
  unfold build_profile at h
  cases hb : build_segments gfd raws with
  | error e => rw [hb] at h; exact absurd h (by simp)
  | ok segs =>
    rw [hb] at h
    simp only [Except.ok.injEq] at h
    subst h
    exact ⟨segs, rfl, rfl⟩

/-- Claim C1: for every `ProtocolSegmentProfileConfig` that validates,
each header segment's `segment_byte_offset` equals the sum of
`len(segment_value) / 2` over all preceding segments; on non-raw
segments (the only ones with field definitions) each hardware
modifier's `position` equals its segment's `segment_byte_offset` plus
the field definition's `byte_offset`, plus the modifier's own `offset`
when its field name is "Src IP Addr" or "Dest IP Addr"; and each
field-value-range's `position` equals `segment_byte_offset · 8` plus
the field definition's `bit_offset`. -/
theorem profile_offsets (gfd : SegmentType → String → Option FieldDefinition)
    (raws : List HeaderSegment) (prof : ProtocolSegmentProfileConfig)
    (i : Nat) (hb : build_profile gfd raws = Except.ok prof)
    (hi : i < prof.header_segments.length) :
    (prof.header_segments.get ⟨i, hi⟩).segment_byte_offset =
      sumLenTo prof.header_segments i ∧
    ((prof.header_segments.get ⟨i, hi⟩).segment_type.is_raw = false →
      (∀ m ∈ (prof.header_segments.get ⟨i, hi⟩).hw_modifiers,
        ∃ fd, gfd (prof.header_segments.get ⟨i, hi⟩).segment_type m.field_name =
            some fd ∧
          m.position = ((prof.header_segments.get ⟨i, hi⟩).segment_byte_offset : Int) +
            (fd.byte_offset : Int) +
            (if m.field_name = "Src IP Addr" ∨ m.field_name = "Dest IP Addr"
             then m.offset else 0)) ∧
      (∀ f ∈ (prof.header_segments.get ⟨i, hi⟩).field_value_ranges,
        ∃ fd, gfd (prof.header_segments.get ⟨i, hi⟩).segment_type f.field_name =
            some fd ∧
          f.position = (prof.header_segments.get ⟨i, hi⟩).segment_byte_offset * 8 +
            fd.bit_offset)) := by
  obtain ⟨segs, hsegs, hprof⟩ := build_profile_ok gfd raws prof hb
  have hlen2 : prof.header_segments.length = segs.length := by
    rw [hprof, set_byte_offset_length]
  have hi' : i < segs.length := by omega
  have hsome : segs[i]? = some (segs.get ⟨i, hi'⟩) := by
    rw [List.getElem?_eq_getElem hi']
    rfl
  have hout : prof.header_segments[i]? =
      some (setSegmentOffsets (sumLenTo segs i) (segs.get ⟨i, hi'⟩)) := by
    rw [hprof, set_byte_offset_get? segs 0 i, hsome]
    simp
  have hq : prof.header_segments[i]? = some (prof.header_segments.get ⟨i, hi⟩) := by
    rw [List.getElem?_eq_getElem hi]
    rfl
  rw [hq] at hout
  have hgeq : prof.header_segments.get ⟨i, hi⟩ =
      setSegmentOffsets (sumLenTo segs i) (segs.get ⟨i, hi'⟩) :=
    Option.some.inj hout
  have hsum : sumLenTo prof.header_segments i = sumLenTo segs i := by
    rw [hprof, sumLenTo_set_byte_offset]
  obtain ⟨r, hr⟩ := build_segments_mem gfd raws segs hsegs
    (segs.get ⟨i, hi'⟩) (segs.get_mem i hi')
  obtain ⟨hstype, hsval, hnonraw⟩ :=
    buildHeaderSegment_ok gfd r (segs.get ⟨i, hi'⟩) hr
  rw [hgeq, hsum]
  simp only [setSegmentOffsets]
  refine ⟨trivial, fun hsraw => ?_⟩
  have hsraw' : (segs.get ⟨i, hi'⟩).segment_type.is_raw = false := hsraw
  obtain ⟨hmods, hfvrs⟩ := hnonraw hsraw'
  constructor
  · intro m' hm'
    rw [List.mem_map] at hm'
    obtain ⟨m, hm, rfl⟩ := hm'
    obtain ⟨fd, hgfd, hbo⟩ := hmods m hm
    refine ⟨fd, hgfd, ?_⟩
    show (setModPosition (sumLenTo segs i) m).position = _
    simp only [setModPosition]
    by_cases hc : m.field_name = "Src IP Addr" ∨ m.field_name = "Dest IP Addr"
    · rw [if_pos hc, if_pos hc, hbo]
    · rw [if_neg hc, if_neg hc, hbo]
      ring
  · intro f' hf'
    rw [List.mem_map] at hf'
    obtain ⟨f, hf, rfl⟩ := hf'
    obtain ⟨fd, hgfd, hbo, _, _⟩ := hfvrs f hf
    exact ⟨fd, hgfd, by simp [hbo]⟩

/-- Witness for C1: the Ethernet + IPv4 demo profile; the second
segment's byte offset is the 14-byte length of the Ethernet segment. -/
theorem profile_offsets_witness :
    (build_profile gfdDemo c1Raws = Except.ok c1Prof ∧
      1 < c1Prof.header_segments.length) ∧
    (c1Prof.header_segments.get ⟨1, by decide⟩).segment_byte_offset =
      sumLenTo c1Prof.header_segments 1 := by
  have hb : build_profile gfdDemo c1Raws = Except.ok c1Prof := by rfl
  have hlen : 1 < c1Prof.header_segments.length := by decide
  exact ⟨⟨hb, hlen⟩, (profile_offsets gfdDemo c1Raws c1Prof 1 hb hlen).1⟩

/-- `set_modifiers` succeeds when every modifier's field exists. -/
theorem set_modifiers_ok (gfd : SegmentType → String → Option FieldDefinition)
    (st : SegmentType) :
    ∀ mods : List HwModifier,
      mods.all (fun m => (gfd st m.field_name).isSome) = true →
      ∃ mods', set_modifiers gfd st mods = Except.ok mods' := by
  intro mods
  induction mods with
  | nil => intro _; exact ⟨[], rfl⟩
  | cons m rest ih =>
    intro hall
    simp only [List.all_cons, Bool.and_eq_true] at hall
    obtain ⟨hm, hrest⟩ := hall
    obtain ⟨fd, hfd⟩ := Option.isSome_iff_exists.mp hm
    obtain ⟨rest', hr⟩ := ih hrest
    exact ⟨{ m with byte_offset := fd.byte_offset } :: rest',
      by simp only [set_modifiers, hfd, hr]⟩

/-- `set_field_value_ranges` succeeds when every range's field exists
and satisfies the §8.2 bound. -/
theorem set_field_value_ranges_ok
    (gfd : SegmentType → String → Option FieldDefinition) (st : SegmentType) :
    ∀ fvrs : List FieldValueRange,
      fvrs.all (fvrOk gfd st) = true →
      ∃ fvrs', set_field_value_ranges gfd st fvrs = Except.ok fvrs' := by
  intro fvrs
  induction fvrs with
  | nil => intro _; exact ⟨[], rfl⟩
  | cons f rest ih =>
    intro hall
    simp only [List.all_cons, Bool.and_eq_true] at hall
    obtain ⟨hf, hrest⟩ := hall
    unfold fvrOk at hf
    cases hg : gfd st f.field_name with
    | none => rw [hg] at hf; exact absurd hf (by simp)
    | some fd =>
      rw [hg] at hf
      simp only [decide_eq_true_eq] at hf
      have hcond : ¬(2 ^ fd.bit_length ≤ max f.start_value f.stop_value) :=
        Nat.not_le.mpr hf
      obtain ⟨rest', hr⟩ := ih hrest
      exact ⟨{ f with bit_length := fd.bit_length, bit_offset := fd.bit_offset } :: rest',
        by simp only [set_field_value_ranges, hg, if_neg hcond, hr]⟩

/-- `set_field_value_ranges` raises `FieldValueRangeExceed` when every
range's field exists and some range violates the §8.2 bound. -/
theorem set_field_value_ranges_error
    (gfd : SegmentType → String → Option FieldDefinition) (st : SegmentType) :
    ∀ fvrs : List FieldValueRange,
      fvrs.all (fun f => (gfd st f.field_name).isSome) = true →
      fvrs.any (fvrViolates gfd st) = true →
      ∃ name can_max, set_field_value_ranges gfd st fvrs =
        Except.error (BuildError.fieldValueRangeExceed name can_max) := by
  intro fvrs
  induction fvrs with
  | nil => intro _ hany; exact absurd hany (by simp)
  | cons f rest ih =>
    intro hall hany
    simp only [List.all_cons, Bool.and_eq_true] at hall
    obtain ⟨hm, hrest⟩ := hall
    obtain ⟨fd, hg⟩ := Option.isSome_iff_exists.mp hm
    by_cases hv : fvrViolates gfd st f = true
    · unfold fvrViolates at hv
      rw [hg] at hv
      simp only [decide_eq_true_eq] at hv
      exact ⟨f.field_name, 2 ^ fd.bit_length,
        by simp only [set_field_value_ranges, hg, if_pos hv]⟩
    · have hrestany : rest.any (fvrViolates gfd st) = true := by
        simp only [List.any_cons, Bool.or_eq_true] at hany
        rcases hany with h1 | h2
        · exact absurd h1 hv
        · exact h2
      have hb : ¬(2 ^ fd.bit_length ≤ max f.start_value f.stop_value) := by
        unfold fvrViolates at hv
        rw [hg] at hv
        simpa using hv
      obtain ⟨n, c, herr⟩ := ih hrest hrestany
      exact ⟨n, c, by simp only [set_field_value_ranges, hg, if_neg hb, herr]⟩

/-- A segment satisfying `segAccepted` builds successfully. -/
theorem buildHeaderSegment_accepts
    (gfd : SegmentType → String → Option FieldDefinition) (h : HeaderSegment)
    (ha : segAccepted gfd h = true) :
    ∃ h', buildHeaderSegment gfd h = Except.ok h' := by
  by_cases hraw : h.segment_type.is_raw = true
  · exact ⟨h, by simp [buildHeaderSegment, hraw]⟩
  · rw [Bool.not_eq_true] at hraw
    simp only [segAccepted, hraw, Bool.false_or, Bool.and_eq_true] at ha
    obtain ⟨hm, hf⟩ := ha
    obtain ⟨mods', hmods⟩ := set_modifiers_ok gfd h.segment_type h.hw_modifiers hm
    obtain ⟨fvrs', hfvrs⟩ :=
      set_field_value_ranges_ok gfd h.segment_type h.field_value_ranges hf
    exact ⟨{ h with hw_modifiers := mods', field_value_ranges := fvrs' },
      by simp only [buildHeaderSegment, hraw, Bool.false_eq_true, if_false,
        hmods, hfvrs]⟩

/-- Every profile whose segments all satisfy `segAccepted` builds
successfully. -/
theorem build_segments_accept
    (gfd : SegmentType → String → Option FieldDefinition) :
    ∀ raws : List HeaderSegment, raws.all (segAccepted gfd) = true →
      ∃ segs, build_segments gfd raws = Except.ok segs := by
  intro raws
  induction raws with
  | nil => intro _; exact ⟨[], rfl⟩
  | cons r rest ih =>
    intro hall
    simp only [List.all_cons, Bool.and_eq_true] at hall
    obtain ⟨hr, hrest⟩ := hall
    obtain ⟨s, hs⟩ := buildHeaderSegment_accepts gfd r hr
    obtain ⟨segs, hsegs⟩ := ih hrest
    exact ⟨s :: segs, by simp only [build_segments, hs, hsegs]⟩

/-- Claim C5: constructing a `HeaderSegment` of non-raw type whose
`field_value_ranges` include a range with
`max(start_value, stop_value) ≥ 2 ^ bit_length` of the named field
fails at build time with `FieldValueRangeExceed` (given that the field
lookups themselves succeed — a missing field is a different
exception); and every profile in which each range satisfies
`max(start, stop) < 2 ^ bit_length` (and the lookups succeed) is
accepted. -/
theorem field_value_range_guard
    (gfd : SegmentType → String → Option FieldDefinition)
    (seg : HeaderSegment) (raws : List HeaderSegment)
    (hraw : seg.segment_type.is_raw = false)
    (hmods : seg.hw_modifiers.all
      (fun m => (gfd seg.segment_type m.field_name).isSome) = true)
    (hlook : seg.field_value_ranges.all
      (fun f => (gfd seg.segment_type f.field_name).isSome) = true)
    (hacc : raws.all (segAccepted gfd) = true) :
    (seg.field_value_ranges.any (fvrViolates gfd seg.segment_type) = true →
      ∃ name can_max, buildHeaderSegment gfd seg =
        Except.error (BuildError.fieldValueRangeExceed name can_max)) ∧
    isOkE (build_profile gfd raws) = true := by
  constructor
  · intro hany
    obtain ⟨mods', hm⟩ := set_modifiers_ok gfd seg.segment_type seg.hw_modifiers hmods
    obtain ⟨n, c, herr⟩ := set_field_value_ranges_error gfd seg.segment_type
      seg.field_value_ranges hlook hany
    exact ⟨n, c, by simp only [buildHeaderSegment, hraw, Bool.false_eq_true,
      if_false, hm, herr]⟩
  · obtain ⟨segs, hsegs⟩ := build_segments_accept gfd raws hacc
    simp [build_profile, hsegs, isOkE]

/-- Witness for C5: the 48-bit destination-MAC range starting at 2^48
is rejected with `FieldValueRangeExceed`, while the demo profile whose
ranges stay in bounds is accepted. -/
theorem field_value_range_guard_witness :
    (c5ViolSeg.segment_type.is_raw = false ∧
      c5ViolSeg.hw_modifiers.all
        (fun m => (gfdDemo c5ViolSeg.segment_type m.field_name).isSome) = true ∧
      c5ViolSeg.field_value_ranges.all
        (fun f => (gfdDemo c5ViolSeg.segment_type f.field_name).isSome) = true ∧
      c1Raws.all (segAccepted gfdDemo) = true ∧
      c5ViolSeg.field_value_ranges.any
        (fvrViolates gfdDemo c5ViolSeg.segment_type) = true) ∧
    (∃ name can_max, buildHeaderSegment gfdDemo c5ViolSeg =
      Except.error (BuildError.fieldValueRangeExceed name can_max)) ∧
    isOkE (build_profile gfdDemo c1Raws) = true := by
  have h := field_value_range_guard gfdDemo c5ViolSeg c1Raws (by decide)
    (by decide) (by decide) (by decide)
  exact ⟨⟨by decide, by decide, by decide, by decide, by decide⟩,
    h.1 (by decide), h.2⟩
